import Mathlib

/-!
Verification development for `src/dbt-bigquery/src/dbt/adapters/bigquery/dv01_dbt_helper.py`.

The Python module is shallowly embedded: JSON-like Python values become the
inductive `JVal`, Python dicts become ordered association lists with unique
keys, HTTP collaborators (document store, taxonomy service, DLC API key
secret) become an explicit `Env` record of their responses, and raised
`ValueError`s become an explicit `Err` inductive whose constructors carry
the data interpolated into the corresponding Python error message.
-/

set_option autoImplicit false

namespace Dv01Helper

/-- JSON-like Python value: `None`, `bool`, `int`, `str`, `list`, `dict`.
A Python dict is modelled as an insertion-ordered association list; genuine
dicts have pairwise-distinct keys (`wfDict`). -/
inductive JVal where
  | null : JVal
  | bool : Bool → JVal
  | num : Int → JVal
  | str : String → JVal
  | list : List JVal → JVal
  | obj : List (String × JVal) → JVal

/-- Python truthiness test `not v` on a value: `None`, `False`, `0`, `""`,
`[]`, and the empty dict are falsy; everything else is truthy. -/
def pyFalsy : JVal → Bool
  | JVal.null => true
  | JVal.bool b => !b
  | JVal.num n => n == 0
  | JVal.str s => s == ""
  | JVal.list l => l.isEmpty
  | JVal.obj m => m.isEmpty

/-- Python truthiness test of a `dict.get` result: an absent key yields
`None`, which is falsy. -/
def pyFalsyOpt : Option JVal → Bool
  | none => true
  | some v => pyFalsy v

/-- Python dict assignment `m[k] = v`: if `k` is already a key its slot is
updated in place (insertion order preserved), otherwise `(k, v)` is appended
at the end. -/
def pySet {α : Type} (m : List (String × α)) (k : String) (v : α) : List (String × α) :=
  if m.any (fun p => p.1 == k) then
    m.map (fun p => if p.1 == k then (k, v) else p)
  else
    m ++ [(k, v)]

mutual

/-- Well-formedness of an embedded Python value: every dict that occurs in
it (at any nesting depth, including inside lists) has pairwise-distinct
keys, as every real Python dict does. -/
def wfVal : JVal → Bool
  | JVal.null => true
  | JVal.bool _ => true
  | JVal.num _ => true
  | JVal.str _ => true
  | JVal.list l => wfList l
  | JVal.obj m => wfDict m

/-- Well-formedness of a list of embedded values (see `wfVal`). -/
def wfList : List JVal → Bool
  | [] => true
  | v :: rest => wfVal v && wfList rest

/-- Well-formedness of an embedded dict: the keys at this level are
pairwise distinct and every value is well-formed (see `wfVal`). -/
def wfDict : List (String × JVal) → Bool
  | [] => true
  | (k, v) :: rest => !(rest.any (fun p => p.1 == k)) && wfVal v && wfDict rest

end

/-- Embedding of `DMSClient._deep_merge_with_priority` (source lines
153-166). `merged` starts as a shallow copy of `base`; for each key of
`override` in insertion order, if the key is present in `merged` and both
the current value and the override value are dicts they are merged
recursively, otherwise the override value replaces the current value
entirely. -/
def deepMergeWithPriority : List (String × JVal) → List (String × JVal) → List (String × JVal)
  | merged, [] => merged
  | merged, (k, ov) :: rest =>
    match merged.lookup k, ov with
    | some (JVal.obj bm), JVal.obj om =>
      deepMergeWithPriority (pySet merged k (JVal.obj (deepMergeWithPriority bm om))) rest
    | _, _ =>
      deepMergeWithPriority (pySet merged k ov) rest
termination_by _ override => sizeOf override
decreasing_by
  all_goals simp_wf
  all_goals omega

mutual

/-- Python `repr` of an embedded value, as used by `str` on containers.
String escaping inside `repr` is not modelled (no claim exercises it): a
string is rendered between plain single quotes. -/
def pyRepr : JVal → String
  | JVal.null => "None"
  | JVal.bool b => if b then "True" else "False"
  | JVal.num n => toString n
  | JVal.str s => "\x27" ++ s ++ "\x27"
  | JVal.list l => "[" ++ pyReprList l ++ "]"
  | JVal.obj m => "\x7b" ++ pyReprObj m ++ "\x7d"

/-- Comma-separated `repr` of the elements of a Python list. -/
def pyReprList : List JVal → String
  | [] => ""
  | [v] => pyRepr v
  | v :: rest => pyRepr v ++ ", " ++ pyReprList rest

/-- Comma-separated `repr` of the entries of a Python dict. -/
def pyReprObj : List (String × JVal) → String
  | [] => ""
  | [(k, v)] => "\x27" ++ k ++ "\x27: " ++ pyRepr v
  | (k, v) :: rest => "\x27" ++ k ++ "\x27: " ++ pyRepr v ++ ", " ++ pyReprObj rest

end

/-- Python `str` of an embedded value, as interpolated by an f-string:
identity on strings, `repr`-like rendering otherwise. -/
def pyStr : JVal → String
  | JVal.str s => s
  | v => pyRepr v

/-- Exception raised by the module. Every raise site in the source raises
`ValueError` with a distinct f-string message; each constructor stands for
one raise site (plus two for Python runtime errors on off-schema data) and
carries the data interpolated into that message. -/
inductive Err where
  | noJobConfig : String → Err
  | noSharedConfig : Int → Err
  | noTaxonomyTag : JVal → Err
  | noTableName : String → Err
  | missingDlcApiKey : Err
  | attributeError : Err
  | typeError : Err

/-- Error kind taxonomy of spec section 7: configuration, not-found,
upstream, validation; `pythonRuntime` covers Python runtime errors on
off-schema data, which the spec does not classify. -/
inductive ErrKind where
  | configuration : ErrKind
  | notFound : ErrKind
  | upstream : ErrKind
  | validation : ErrKind
  | pythonRuntime : ErrKind

/-- Classification of each raise site under the spec's error-kind
taxonomy: missing job config, missing shared config, and missing taxonomy
tag are not-found errors; a missing required credential is a configuration
error; a config lacking the table-name field is a validation error. -/
def Err.kind : Err → ErrKind
  | Err.noJobConfig _ => ErrKind.notFound
  | Err.noSharedConfig _ => ErrKind.notFound
  | Err.noTaxonomyTag _ => ErrKind.notFound
  | Err.noTableName _ => ErrKind.validation
  | Err.missingDlcApiKey => ErrKind.configuration
  | Err.attributeError => ErrKind.pythonRuntime
  | Err.typeError => ErrKind.pythonRuntime

/-- Record of the taxonomy-service response: a JSON array of
`(name, id, category)` objects (spec section 6); `category` is optional
since the source reads it with `tag.get('category')`. -/
structure TaxTag where
  name : String
  id : Int
  category : Option String

/-- Search request body sent to the document store by `_fetch_job_config`
and `_fetch_shared_platform_config`: fields `externalIdType`, `value` (a
string job id or an integer taxonomy id), `documentType`,
`includeUnreleased`, `latestOnly`. -/
structure SearchRequest where
  externalIdType : String
  value : JVal
  documentType : String
  includeUnreleased : Bool
  latestOnly : Bool

/-- Responses of the three remote collaborators the module calls, fixed
for the duration of a run. `docStore` maps a search request body to the
response record list (each record a JSON object); `taxonomyResponse` is
the body of `GET /taxonomy`; `dlcApiKey` is the `DLC_API_KEY` secret value
fetched during `DLCTaxonomyClient` construction (empty string models a
falsy secret). Non-2xx HTTP responses are outside the model: every claim
under verification concerns successful transport. -/
structure Env where
  docStore : SearchRequest → List (List (String × JVal))
  taxonomyResponse : List TaxTag
  dlcApiKey : String

/-- State of a `DLCTaxonomyClient` instance: the lazily populated
`_taxonomy_cache`, `none` until the first `get_taxonomy_tag_id` call. -/
structure DLCTaxonomyClient where
  taxonomyCache : Option (List (String × Int))

/-- Embedding of `DLCTaxonomyClient.fetch_taxonomy_tags` (source lines
46-62): one GET to the taxonomy service, then a dict comprehension keeping
only tags whose `category` equals `"PIPELINE_PLATFORM"`, mapping name to
id (later duplicates of a name overwrite earlier ones, as in a Python dict
comprehension). -/
def fetchTaxonomyTags (env : Env) : List (String × Int) :=
  (env.taxonomyResponse.filter (fun t => t.category == some "PIPELINE_PLATFORM")).foldl
    (fun m t => pySet m t.name t.id) []

/-- Python `cache.get(platform_tag)` where the cache keys are strings and
`platform_tag` is an arbitrary value: a string key is looked up, another
hashable value matches no string key and yields `None`, an unhashable
value (list or dict) raises `TypeError`. -/
def pyDictGetTag (cache : List (String × Int)) : JVal → Except Err (Option Int)
  | JVal.str s => Except.ok (cache.lookup s)
  | JVal.list _ => Except.error Err.typeError
  | JVal.obj _ => Except.error Err.typeError
  | _ => Except.ok none

/-- Embedding of `DLCTaxonomyClient.get_taxonomy_tag_id` (source lines
64-79): populate `_taxonomy_cache` via `fetch_taxonomy_tags` if it is
still `None`, then look the tag up, raising `ValueError` when the lookup
yields `None`. Returns the result, the updated client state, and the
number of taxonomy-service HTTP calls the invocation issued. -/
def getTaxonomyTagId (env : Env) (c : DLCTaxonomyClient) (platformTag : JVal) :
    Except Err Int × DLCTaxonomyClient × Nat :=
  let state :=
    match c.taxonomyCache with
    | none => (fetchTaxonomyTags env, 1)
    | some m => (m, 0)
  let r :=
    match pyDictGetTag state.1 platformTag with
    | Except.error e => Except.error e
    | Except.ok none => Except.error (Err.noTaxonomyTag platformTag)
    | Except.ok (some i) => Except.ok i
  (r, ⟨some state.1⟩, state.2)

/-- Sequence of `get_taxonomy_tag_id` calls on one client instance,
threading its state and summing the taxonomy-service HTTP calls issued. -/
def runTagLookups (env : Env) (c : DLCTaxonomyClient) : List JVal → DLCTaxonomyClient × Nat
  | [] => (c, 0)
  | t :: ts =>
    let step := getTaxonomyTagId env c t
    let rest := runTagLookups env step.2.1 ts
    (rest.1, step.2.2 + rest.2)

/-- Search request built by `_fetch_job_config` (source lines 137-143):
external id of type `JobId` with the job id, document type `PipelineJob`,
`includeUnreleased` iff not in production, `latestOnly` true. -/
def jobSearchRequest (jobId : String) (isProd : Bool) : SearchRequest :=
  ⟨"JobId", JVal.str jobId, "PipelineJob", !isProd, true⟩

/-- Search request built by `_fetch_shared_platform_config` (source lines
169-175): external id of type `PipelinePlatformId` with the integer
taxonomy tag id, document type `SharedPipelineJob`, same flags. -/
def sharedSearchRequest (taxonomyTagId : Int) (isProd : Bool) : SearchRequest :=
  ⟨"PipelinePlatformId", JVal.num taxonomyTagId, "SharedPipelineJob", !isProd, true⟩

/-- Embedding of `DMSClient._fetch_job_config` (source lines 136-151): one
document-store POST; `ValueError` when the response record list is empty,
otherwise `records[0].get('json', {})`. -/
def fetchJobConfig (env : Env) (jobId : String) (isProd : Bool) : Except Err JVal :=
  match env.docStore (jobSearchRequest jobId isProd) with
  | [] => Except.error (Err.noJobConfig jobId)
  | r :: _ => Except.ok ((r.lookup "json").getD (JVal.obj []))

/-- Embedding of `DMSClient._fetch_shared_platform_config` (source lines
168-183): one document-store POST; `ValueError` when the response record
list is empty, otherwise `records[0].get('json', {})`. -/
def fetchSharedPlatformConfig (env : Env) (taxonomyTagId : Int) (isProd : Bool) :
    Except Err JVal :=
  match env.docStore (sharedSearchRequest taxonomyTagId isProd) with
  | [] => Except.error (Err.noSharedConfig taxonomyTagId)
  | r :: _ => Except.ok ((r.lookup "json").getD (JVal.obj []))

/-- Embedding of the tail of `DMSClient._fetch_model_by_job_id` (source
lines 130-134): `model = merged_config.get('foundations-table-name')`,
raise `ValueError` when the result is falsy, return it otherwise. -/
def extractModel (jobId : String) (config : List (String × JVal)) : Except Err JVal :=
  match config.lookup "foundations-table-name" with
  | none => Except.error (Err.noTableName jobId)
  | some v => if pyFalsy v then Except.error (Err.noTableName jobId) else Except.ok v

/-- Observable side effect of one resolution: a document-store POST, a
taxonomy-service HTTP GET, or the warning printed on the missing
`platformTag` branch. -/
inductive Effect where
  | docStore : Effect
  | taxHttp : Effect
  | warn : Effect

/-- Embedding of `DMSClient._fetch_model_by_job_id` (source lines
106-134), returning the result together with the ordered list of effects
the call performed. A fresh `DLCTaxonomyClient` (empty cache) is
constructed inside the platform branch on every call, exactly as in the
source; its construction fetches the `DLC_API_KEY` secret and raises
`ValueError` when that value is falsy. Applying `.get` to a non-dict
config raises `AttributeError` (`attributeError` here); a non-dict shared
config makes the merge raise (`typeError` here). -/
def fetchModelByJobId (env : Env) (jobId : String) (isProd : Bool) :
    Except Err JVal × List Effect :=
  match fetchJobConfig env jobId isProd with
  | Except.error e => (Except.error e, [Effect.docStore])
  | Except.ok (JVal.obj m) =>
    match m.lookup "platformTag" with
    | none => (extractModel jobId m, [Effect.docStore, Effect.warn])
    | some pv =>
      if pyFalsy pv then (extractModel jobId m, [Effect.docStore, Effect.warn])
      else if env.dlcApiKey == "" then (Except.error Err.missingDlcApiKey, [Effect.docStore])
      else
        match (getTaxonomyTagId env ⟨none⟩ pv).1 with
        | Except.error e =>
          (Except.error e,
           Effect.docStore
             :: List.replicate (getTaxonomyTagId env ⟨none⟩ pv).2.2 Effect.taxHttp)
        | Except.ok tid =>
          match fetchSharedPlatformConfig env tid isProd with
          | Except.error e =>
            (Except.error e,
             Effect.docStore
               :: List.replicate (getTaxonomyTagId env ⟨none⟩ pv).2.2 Effect.taxHttp
               ++ [Effect.docStore])
          | Except.ok (JVal.obj sm) =>
            (extractModel jobId (deepMergeWithPriority sm m),
             Effect.docStore
               :: List.replicate (getTaxonomyTagId env ⟨none⟩ pv).2.2 Effect.taxHttp
               ++ [Effect.docStore])
          | Except.ok _ =>
            (Except.error Err.typeError,
             Effect.docStore
               :: List.replicate (getTaxonomyTagId env ⟨none⟩ pv).2.2 Effect.taxHttp
               ++ [Effect.docStore])
  | Except.ok _ => (Except.error Err.attributeError, [Effect.docStore])

/-- Embedding of `job_id.replace("/", "_")` (source line 102): both the
pattern and the replacement are single characters, so Python's
replace-all-occurrences is exactly a character map. -/
def replaceSlash (s : String) : String :=
  String.mk (s.data.map (fun c => if c = '/' then '_' else c))

/-- Embedding of `DMSClient.fetch_model_and_pool_name` (source lines
96-104): resolve the model via `_fetch_model_by_job_id`, compute
`pool_name` by replacing every `/` in the job id with `_`, and format the
invocation string, with its effect trace. -/
def fetchModelAndPoolName (env : Env) (isProd : Bool) (jobId : String) :
    Except Err String × List Effect :=
  match fetchModelByJobId env jobId isProd with
  | (Except.error e, t) => (Except.error e, t)
  | (Except.ok model, t) =>
    (Except.ok ("+" ++ pyStr model ++ " --vars \x27\x7b\"pool_name\": \""
       ++ replaceSlash jobId ++ "\", \"scala_job_id\": \"" ++ jobId ++ "\"\x7d\x27"), t)

/-- Number of taxonomy-service HTTP calls recorded in an effect trace. -/
def countTaxHttp : List Effect → Nat
  | [] => 0
  | Effect.taxHttp :: t => countTaxHttp t + 1
  | _ :: t => countTaxHttp t

/-- Effect trace of `n` successive `fetch_model_and_pool_name` calls on
one `DMSClient`. The `DMSClient` instance itself holds no mutable state,
so the calls are independent. -/
def runResolutions (env : Env) (jobId : String) (isProd : Bool) : Nat → List Effect
  | 0 => []
  | n + 1 => (fetchModelAndPoolName env isProd jobId).2 ++ runResolutions env jobId isProd n

/-- Heap-level Python value for the mutation analysis of
`_deep_merge_with_priority`: scalars and lists are immutable payloads (the
merge never mutates a list in place), while every dict is a reference
`ref a` to a cell of the store, so in-place dict mutation is observable. -/
inductive HVal where
  | str : String → HVal
  | num : Int → HVal
  | bool : Bool → HVal
  | null : HVal
  | list : List HVal → HVal
  | ref : Nat → HVal

/-- Heap of dict objects: cell `a` holds the entry list of the dict whose
reference is `HVal.ref a`. -/
structure Store where
  mem : List (List (String × HVal))

/-- Read the dict object at address `a`; `none` for a dangling address. -/
def Store.readDict (s : Store) (a : Nat) : Option (List (String × HVal)) :=
  s.mem[a]?

/-- Overwrite the dict object at address `a` (a Python in-place dict
update such as `merged[key] = value`). -/
def Store.writeDict (s : Store) (a : Nat) (d : List (String × HVal)) : Store :=
  ⟨s.mem.set a d⟩

/-- Allocate a fresh dict object holding `d` (a Python `dict.copy()` or
dict display); its address is the previous store length. -/
def Store.allocDict (s : Store) (d : List (String × HVal)) : Store :=
  ⟨s.mem ++ [d]⟩

/-- Loop body of the heap-level merge, abstracted over the recursive
merge `rec` so that the recursion is structural: for each key of the
override snapshot, if both the current `merged` slot and the override
value are dict references, merge them recursively and store the resulting
reference, otherwise store the override value directly; every write
targets the `merged` address only. -/
def mergeLoopWith (rec : Store → Nat → Nat → Option (Store × Nat)) :
    Store → Nat → List (String × HVal) → Option (Store × Nat)
  | s, mergedA, [] => some (s, mergedA)
  | s, mergedA, (k, ov) :: rest =>
    match s.readDict mergedA with
    | none => none
    | some md =>
      match md.lookup k, ov with
      | some (HVal.ref ba), HVal.ref oa =>
        match rec s ba oa with
        | none => none
        | some (s2, subA) =>
          match s2.readDict mergedA with
          | none => none
          | some md2 =>
            mergeLoopWith rec (s2.writeDict mergedA (pySet md2 k (HVal.ref subA))) mergedA rest
      | _, _ => mergeLoopWith rec (s.writeDict mergedA (pySet md k ov)) mergedA rest

/-- Heap-level embedding of `DMSClient._deep_merge_with_priority` (source
lines 153-166), fuelled to make the heap recursion total: read the `base`
and `override` dicts, allocate `merged` as a shallow copy of `base`
(`base.copy()`), then run the loop over the override entries. `none`
arises only from fuel exhaustion or a dangling address, never on an
acyclic well-formed heap with enough fuel. -/
def deepMergeH : Nat → Store → Nat → Nat → Option (Store × Nat)
  | 0, _, _, _ => none
  | fuel + 1, s, baseA, overA =>
    match s.readDict baseA, s.readDict overA with
    | some bd, some od => mergeLoopWith (deepMergeH fuel) (s.allocDict bd) s.mem.length od
    | _, _ => none

/-! Lemmas about dict lookup, assignment, and the recursive merge. -/

theorem lookup_cons_ne {α : Type} (t : List (String × α)) (k a : String) (b : α)
    (h : (k == a) = false) :
    List.lookup k ((a, b) :: t) = List.lookup k t := by
  simp [List.lookup_cons, h]

theorem beq_symm_false {k a : String} (h : (a == k) = false) : (k == a) = false :=
  beq_eq_false_iff_ne.mpr (fun e => beq_eq_false_iff_ne.mp h e.symm)

theorem lookup_map_set {α : Type} (m : List (String × α)) (k : String) (v : α)
    (h : m.any (fun p => p.1 == k) = true) :
    (m.map (fun p => if p.1 == k then (k, v) else p)).lookup k = some v := by
  induction m with
  | nil => simp at h
  | cons p t ih =>
    obtain ⟨a, b⟩ := p
    rw [List.map_cons]
    cases hc : (a == k) with
    | true =>
      rw [if_pos rfl, List.lookup_cons_self]
    | false =>
      have h2 : t.any (fun p => p.1 == k) = true := by
        rw [List.any_cons, hc, Bool.false_or] at h
        exact h
      rw [if_neg Bool.false_ne_true, lookup_cons_ne _ _ _ _ (beq_symm_false hc)]
      exact ih h2

theorem lookup_map_set_ne {α : Type} (m : List (String × α)) (k k2 : String) (v : α)
    (h : k2 ≠ k) :
    (m.map (fun p => if p.1 == k then (k, v) else p)).lookup k2 = m.lookup k2 := by
  have hkk2 : (k2 == k) = false := beq_eq_false_iff_ne.mpr h
  induction m with
  | nil => simp
  | cons p t ih =>
    obtain ⟨a, b⟩ := p
    rw [List.map_cons]
    cases hc : (a == k) with
    | true =>
      have hak : a = k := beq_iff_eq.mp hc
      have hne : (k2 == a) = false := by rw [hak]; exact hkk2
      rw [if_pos rfl, lookup_cons_ne _ _ _ _ hkk2, lookup_cons_ne _ _ _ _ hne]
      exact ih
    | false =>
      rw [if_neg Bool.false_ne_true]
      cases hd : (k2 == a) with
      | true =>
        rw [List.lookup_cons, hd, List.lookup_cons, hd]
      | false =>
        rw [lookup_cons_ne _ _ _ _ hd, lookup_cons_ne _ _ _ _ hd]
        exact ih

theorem lookup_append_single_ne {α : Type} (m : List (String × α)) (k k2 : String) (v : α)
    (h : k2 ≠ k) :
    (m ++ [(k, v)]).lookup k2 = m.lookup k2 := by
  have hkk2 : (k2 == k) = false := beq_eq_false_iff_ne.mpr h
  induction m with
  | nil => rw [List.nil_append, lookup_cons_ne _ _ _ _ hkk2]
  | cons p t ih =>
    obtain ⟨a, b⟩ := p
    cases hd : (k2 == a) with
    | true =>
      rw [List.cons_append, List.lookup_cons, hd, List.lookup_cons, hd]
    | false =>
      rw [List.cons_append, lookup_cons_ne _ _ _ _ hd, lookup_cons_ne _ _ _ _ hd]
      exact ih

theorem lookup_append_single {α : Type} (m : List (String × α)) (k : String) (v : α)
    (h : m.lookup k = none) :
    (m ++ [(k, v)]).lookup k = some v := by
  induction m with
  | nil => simp
  | cons p t ih =>
    obtain ⟨a, b⟩ := p
    cases hc : (k == a) with
    | true => rw [List.lookup_cons, hc] at h; exact absurd h (by simp)
    | false =>
      rw [lookup_cons_ne _ _ _ _ hc] at h
      rw [List.cons_append, lookup_cons_ne _ _ _ _ hc]
      exact ih h

theorem lookup_none_of_not_any {α : Type} (m : List (String × α)) (k : String)
    (h : m.any (fun p => p.1 == k) = false) :
    m.lookup k = none := by
  induction m with
  | nil => simp
  | cons p t ih =>
    obtain ⟨a, b⟩ := p
    rw [List.any_cons, Bool.or_eq_false_iff] at h
    rw [lookup_cons_ne _ _ _ _ (beq_symm_false h.1)]
    exact ih h.2

theorem lookup_pySet_self {α : Type} (m : List (String × α)) (k : String) (v : α) :
    (pySet m k v).lookup k = some v := by
  unfold pySet
  cases hc : m.any (fun p => p.1 == k) with
  | true =>
    rw [if_pos rfl]
    exact lookup_map_set m k v hc
  | false =>
    rw [if_neg Bool.false_ne_true]
    exact lookup_append_single m k v (lookup_none_of_not_any m k hc)

theorem lookup_pySet_ne {α : Type} (m : List (String × α)) (k k2 : String) (v : α)
    (h : k2 ≠ k) :
    (pySet m k v).lookup k2 = m.lookup k2 := by
  unfold pySet
  split
  · exact lookup_map_set_ne m k k2 v h
  · exact lookup_append_single_ne m k k2 v h

theorem merge_lookup_untouched (rest : List (String × JVal)) (m : List (String × JVal))
    (k : String) (h : k ∉ rest.map Prod.fst) :
    (deepMergeWithPriority m rest).lookup k = m.lookup k := by
  induction rest generalizing m with
  | nil => rw [deepMergeWithPriority.eq_1]
  | cons p t ih =>
    obtain ⟨k2, ov⟩ := p
    rw [List.map_cons] at h
    have hne : k ≠ k2 := fun e => h (by rw [e]; exact List.mem_cons_self _ _)
    have ht : k ∉ t.map Prod.fst := fun e => h (List.mem_cons_of_mem _ e)
    by_cases hobj : ∃ bm om : List (String × JVal),
        m.lookup k2 = some (JVal.obj bm) ∧ ov = JVal.obj om
    · obtain ⟨bm, om, h1, h2⟩ := hobj
      subst h2
      rw [deepMergeWithPriority.eq_2 _ _ _ _ _ h1, ih _ ht, lookup_pySet_ne _ _ _ _ hne]
    · rw [deepMergeWithPriority.eq_3 _ _ _ _
        (fun bm om h1 h2 => hobj ⟨bm, om, h1, h2⟩), ih _ ht, lookup_pySet_ne _ _ _ _ hne]

def mergeSpecVal (b : Option JVal) (ov : JVal) : JVal :=
  match b, ov with
  | some (JVal.obj bm), JVal.obj om => JVal.obj (deepMergeWithPriority bm om)
  | _, _ => ov

theorem mergeSpecVal_not_obj (b : Option JVal) (ov : JVal)
    (h : ∀ bm om : List (String × JVal),
      b = some (JVal.obj bm) → ov = JVal.obj om → False) :
    mergeSpecVal b ov = ov := by
  unfold mergeSpecVal
  split
  next bm om => exact ((h bm om rfl rfl)).elim
  next => rfl

theorem merge_lookup_found (rest : List (String × JVal)) (m : List (String × JVal))
    (k : String) (ov : JVal)
    (hnd : (rest.map Prod.fst).Nodup) (hl : rest.lookup k = some ov) :
    (deepMergeWithPriority m rest).lookup k = some (mergeSpecVal (m.lookup k) ov) := by
  induction rest generalizing m with
  | nil => simp at hl
  | cons p t ih =>
    obtain ⟨k2, ov2⟩ := p
    rw [List.map_cons, List.nodup_cons] at hnd
    by_cases he : k = k2
    · subst he
      have hov : ov2 = ov := by
        rw [List.lookup_cons_self] at hl
        exact Option.some.inj hl
      subst hov
      by_cases hobj : ∃ bm om : List (String × JVal),
          m.lookup k = some (JVal.obj bm) ∧ ov2 = JVal.obj om
      · obtain ⟨bm, om, h1, h2⟩ := hobj
        subst h2
        rw [deepMergeWithPriority.eq_2 _ _ _ _ _ h1,
          merge_lookup_untouched _ _ _ hnd.1, lookup_pySet_self, h1]
        rfl
      · rw [deepMergeWithPriority.eq_3 _ _ _ _
            (fun bm om h1 h2 => hobj ⟨bm, om, h1, h2⟩),
          merge_lookup_untouched _ _ _ hnd.1, lookup_pySet_self,
          mergeSpecVal_not_obj _ _ (fun bm om h1 h2 => hobj ⟨bm, om, h1, h2⟩)]
    · have hkk : (k == k2) = false := beq_eq_false_iff_ne.mpr he
      have hl2 : t.lookup k = some ov := by
        rw [lookup_cons_ne _ _ _ _ hkk] at hl
        exact hl
      by_cases hobj : ∃ bm om : List (String × JVal),
          m.lookup k2 = some (JVal.obj bm) ∧ ov2 = JVal.obj om
      · obtain ⟨bm, om, h1, h2⟩ := hobj
        subst h2
        rw [deepMergeWithPriority.eq_2 _ _ _ _ _ h1, ih _ hnd.2 hl2,
          lookup_pySet_ne _ _ _ _ he]
      · rw [deepMergeWithPriority.eq_3 _ _ _ _
            (fun bm om h1 h2 => hobj ⟨bm, om, h1, h2⟩), ih _ hnd.2 hl2,
          lookup_pySet_ne _ _ _ _ he]

theorem wfVal_obj (m : List (String × JVal)) : wfVal (JVal.obj m) = wfDict m := rfl

theorem wfDict_cons (k : String) (v : JVal) (rest : List (String × JVal)) :
    wfDict ((k, v) :: rest)
      = (!(rest.any (fun p => p.1 == k)) && wfVal v && wfDict rest) := rfl

theorem not_mem_keys_of_not_any {α : Type} (m : List (String × α)) (k : String)
    (h : m.any (fun p => p.1 == k) = false) : k ∉ m.map Prod.fst := by
  intro hmem
  obtain ⟨p, hp, he⟩ := List.mem_map.mp hmem
  rw [List.any_eq_false] at h
  exact h p hp (beq_iff_eq.mpr he)

theorem wfDict_parts (k : String) (v : JVal) (rest : List (String × JVal))
    (h : wfDict ((k, v) :: rest) = true) :
    rest.any (fun p => p.1 == k) = false ∧ wfVal v = true ∧ wfDict rest = true := by
  rw [wfDict_cons, Bool.and_assoc, Bool.and_eq_true, Bool.and_eq_true] at h
  exact ⟨by cases hx : (rest.any fun p => p.1 == k) with | false => rfl | true => rw [hx] at h; exact absurd h.1 (by simp), h.2.1, h.2.2⟩

theorem wfDict_nodup (m : List (String × JVal)) (h : wfDict m = true) :
    (m.map Prod.fst).Nodup := by
  induction m with
  | nil => simp
  | cons p t ih =>
    obtain ⟨k, v⟩ := p
    obtain ⟨h1, h2, h3⟩ := wfDict_parts _ _ _ h
    rw [List.map_cons, List.nodup_cons]
    exact ⟨not_mem_keys_of_not_any _ _ h1, ih h3⟩

theorem wfDict_mem_val (m : List (String × JVal)) (h : wfDict m = true)
    (p : String × JVal) (hp : p ∈ m) : wfVal p.2 = true := by
  induction m with
  | nil => simp at hp
  | cons q t ih =>
    obtain ⟨k, v⟩ := q
    obtain ⟨h1, h2, h3⟩ := wfDict_parts _ _ _ h
    rcases List.mem_cons.mp hp with he | ht
    · rw [he]
      exact h2
    · exact ih h3 ht

theorem lookup_of_mem_nodup {α : Type} (m : List (String × α)) (k : String) (v : α)
    (hnd : (m.map Prod.fst).Nodup) (hm : (k, v) ∈ m) : m.lookup k = some v := by
  induction m with
  | nil => simp at hm
  | cons p t ih =>
    obtain ⟨a, b⟩ := p
    rw [List.map_cons, List.nodup_cons] at hnd
    rcases List.mem_cons.mp hm with he | ht
    · obtain ⟨h1, h2⟩ := Prod.mk.injEq k v a b ▸ he
      subst h1
      subst h2
      exact List.lookup_cons_self
    · by_cases hk : k = a
      · exfalso
        apply hnd.1
        rw [← hk]
        exact List.mem_map.mpr ⟨(k, v), ht, rfl⟩
      · rw [lookup_cons_ne _ _ _ _ (beq_eq_false_iff_ne.mpr hk)]
        exact ih hnd.2 ht

theorem lookup_isSome_of_mem_keys {α : Type} (m : List (String × α)) (k : String)
    (h : k ∈ m.map Prod.fst) : (m.lookup k).isSome = true := by
  induction m with
  | nil => simp at h
  | cons p t ih =>
    obtain ⟨a, b⟩ := p
    by_cases hk : k = a
    · subst hk
      rw [List.lookup_cons_self]
      rfl
    · rw [lookup_cons_ne _ _ _ _ (beq_eq_false_iff_ne.mpr hk)]
      rw [List.map_cons] at h
      rcases List.mem_cons.mp h with he | ht
      · exact absurd he hk
      · exact ih ht

theorem map_set_id_not_mem {α : Type} (m : List (String × α)) (k : String) (v : α)
    (h : k ∉ m.map Prod.fst) :
    m.map (fun p => if p.1 == k then (k, v) else p) = m := by
  induction m with
  | nil => rfl
  | cons p t ih =>
    obtain ⟨a, b⟩ := p
    rw [List.map_cons] at h ⊢
    have hne : ¬a = k := fun e => h (by rw [e]; exact List.mem_cons_self _ _)
    have hf : (a == k) = false := beq_eq_false_iff_ne.mpr hne
    rw [if_neg (fun hh => Bool.false_ne_true (hf.symm.trans hh)),
      ih (fun e => h (List.mem_cons_of_mem _ e))]

theorem map_set_id {α : Type} (m : List (String × α)) (k : String) (v : α)
    (hnd : (m.map Prod.fst).Nodup) (hl : m.lookup k = some v) :
    m.map (fun p => if p.1 == k then (k, v) else p) = m := by
  induction m with
  | nil => rfl
  | cons p t ih =>
    obtain ⟨a, b⟩ := p
    rw [List.map_cons, List.nodup_cons] at hnd
    rw [List.map_cons]
    by_cases he : a = k
    · subst he
      rw [List.lookup_cons_self] at hl
      obtain hb : b = v := Option.some.inj hl
      subst hb
      rw [if_pos (beq_iff_eq.mpr rfl), map_set_id_not_mem _ _ _ hnd.1]
    · have hf : (a == k) = false := beq_eq_false_iff_ne.mpr he
      rw [lookup_cons_ne _ _ _ _ (beq_symm_false hf)] at hl
      rw [if_neg (fun hh => Bool.false_ne_true (hf.symm.trans hh)), ih hnd.2 hl]

theorem pySet_self {α : Type} (m : List (String × α)) (k : String) (v : α)
    (hnd : (m.map Prod.fst).Nodup) (hl : m.lookup k = some v) :
    pySet m k v = m := by
  have hany : m.any (fun p => p.1 == k) = true := by
    cases hx : m.any (fun p => p.1 == k) with
    | true => rfl
    | false => rw [lookup_none_of_not_any m k hx] at hl; exact Option.noConfusion hl
  unfold pySet
  rw [if_pos hany]
  exact map_set_id m k v hnd hl

theorem merge_self_fold (rest m : List (String × JVal))
    (hnd : (m.map Prod.fst).Nodup)
    (hmem : ∀ p ∈ rest, m.lookup p.1 = some p.2)
    (hobj : ∀ p ∈ rest, ∀ om : List (String × JVal), p.2 = JVal.obj om →
      deepMergeWithPriority om om = om) :
    deepMergeWithPriority m rest = m := by
  induction rest with
  | nil => rw [deepMergeWithPriority.eq_1]
  | cons p t ih =>
    obtain ⟨k, v⟩ := p
    have hlk : m.lookup k = some v := hmem _ (List.mem_cons_self _ _)
    have hstep : ∀ q ∈ t, m.lookup q.1 = some q.2 :=
      fun q hq => hmem _ (List.mem_cons_of_mem _ hq)
    have hstep2 : ∀ q ∈ t, ∀ om : List (String × JVal), q.2 = JVal.obj om →
        deepMergeWithPriority om om = om :=
      fun q hq => hobj _ (List.mem_cons_of_mem _ hq)
    by_cases hv : ∃ om : List (String × JVal), v = JVal.obj om
    · obtain ⟨om, rfl⟩ := hv
      have hid : deepMergeWithPriority om om = om :=
        hobj _ (List.mem_cons_self _ _) om rfl
      rw [deepMergeWithPriority.eq_2 _ _ _ _ _ hlk, hid, pySet_self _ _ _ hnd hlk]
      exact ih hstep hstep2
    · have hno : ∀ bm om : List (String × JVal),
          m.lookup k = some (JVal.obj bm) → v = JVal.obj om → False :=
        fun bm om h1 h2 => hv ⟨om, h2⟩
      rw [deepMergeWithPriority.eq_3 _ _ _ _ hno, pySet_self _ _ _ hnd hlk]
      exact ih hstep hstep2

theorem merge_self_aux : ∀ n : Nat, ∀ x : List (String × JVal), sizeOf x < n →
    wfDict x = true → deepMergeWithPriority x x = x := by
  intro n
  induction n with
  | zero => exact fun x h => absurd h (Nat.not_lt_zero _)
  | succ n ih =>
    intro x hs hwf
    apply merge_self_fold
    · exact wfDict_nodup _ hwf
    · exact fun p hp => lookup_of_mem_nodup _ _ _ (wfDict_nodup _ hwf) hp
    · intro p hp om he
      apply ih
      · have h1 : sizeOf p < sizeOf x := List.sizeOf_lt_of_mem hp
        have h2 : sizeOf om < sizeOf p := by
          obtain ⟨pk, pv⟩ := p
          simp only [] at he
          subst he
          simp
          omega
        omega
      · have hwv := wfDict_mem_val _ hwf _ hp
        rw [he, wfVal_obj] at hwv
        exact hwv

/-! Claim theorems. -/

/-- C1: for every pair of dicts `base` and `override` and every key `k`:
if `k` is in `override` and both `base[k]` and `override[k]` are dicts,
`deep_merge(base, override)[k]` is `deep_merge(base[k], override[k])`;
if `k` is in `override` and not both sides are dicts, the merged value is
`override[k]` exactly (full replacement, including sequences and type
mismatches); and if `k` is not in `override`, the merged lookup agrees
with `base` (so every key of `base` absent from `override` keeps its base
value). -/
theorem claim_C1_deep_merge_pointwise (base override : List (String × JVal)) (k : String)
    (_hb : wfDict base = true) (ho : wfDict override = true) :
    (∀ bm om : List (String × JVal),
      base.lookup k = some (JVal.obj bm) → override.lookup k = some (JVal.obj om) →
      (deepMergeWithPriority base override).lookup k
        = some (JVal.obj (deepMergeWithPriority bm om)))
    ∧ (∀ ov : JVal, override.lookup k = some ov →
      (∀ bm om : List (String × JVal),
        base.lookup k = some (JVal.obj bm) → ov = JVal.obj om → False) →
      (deepMergeWithPriority base override).lookup k = some ov)
    ∧ (override.lookup k = none →
      (deepMergeWithPriority base override).lookup k = base.lookup k) := by
  refine ⟨?_, ?_, ?_⟩
  · intro bm om h1 h2
    rw [merge_lookup_found _ _ _ _ (wfDict_nodup _ ho) h2, h1]
    rfl
  · intro ov h1 hno
    rw [merge_lookup_found _ _ _ _ (wfDict_nodup _ ho) h1, mergeSpecVal_not_obj _ _ hno]
  · intro h1
    apply merge_lookup_untouched
    intro hmem
    have := lookup_isSome_of_mem_keys override k hmem
    rw [h1] at this
    exact Bool.false_ne_true this

/-- Witness for C1 at concrete dicts: key `"a"` is a dict on both sides
and merges recursively, key `"c"` (a list) is replaced wholesale, and key
`"b"` of the base survives untouched. -/
theorem claim_C1_witness :
    (deepMergeWithPriority
        [("a", JVal.obj [("x", JVal.num 1)]), ("b", JVal.num 2)]
        [("a", JVal.obj [("y", JVal.num 3)]), ("c", JVal.list [JVal.num 4])]).lookup "a"
      = some (JVal.obj (deepMergeWithPriority [("x", JVal.num 1)] [("y", JVal.num 3)]))
    ∧ (deepMergeWithPriority
        [("a", JVal.obj [("x", JVal.num 1)]), ("b", JVal.num 2)]
        [("a", JVal.obj [("y", JVal.num 3)]), ("c", JVal.list [JVal.num 4])]).lookup "c"
      = some (JVal.list [JVal.num 4])
    ∧ (deepMergeWithPriority
        [("a", JVal.obj [("x", JVal.num 1)]), ("b", JVal.num 2)]
        [("a", JVal.obj [("y", JVal.num 3)]), ("c", JVal.list [JVal.num 4])]).lookup "b"
      = some (JVal.num 2) := by
  refine ⟨?_, ?_, ?_⟩
  · exact (claim_C1_deep_merge_pointwise _ _ "a" (by rfl) (by rfl)).1 _ _ rfl rfl
  · exact (claim_C1_deep_merge_pointwise _ _ "c" (by rfl) (by rfl)).2.1 _ rfl
      (fun bm om h1 h2 => Option.noConfusion h1)
  · exact ((claim_C1_deep_merge_pointwise
      [("a", JVal.obj [("x", JVal.num 1)]), ("b", JVal.num 2)]
      [("a", JVal.obj [("y", JVal.num 3)]), ("c", JVal.list [JVal.num 4])]
      "b" (by rfl) (by rfl)).2.2 rfl).trans rfl

/-- C6: merging a well-formed dict with itself returns it unchanged
(idempotence of `_deep_merge_with_priority` when override equals base). -/
theorem claim_C6_deep_merge_idempotent (x : List (String × JVal)) (h : wfDict x = true) :
    deepMergeWithPriority x x = x :=
  merge_self_aux (sizeOf x + 1) x (Nat.lt_succ_self _) h

/-- Witness for C6 at a concrete nested dict. -/
theorem claim_C6_witness :
    wfDict [("a", JVal.num 1), ("b", JVal.obj [("c", JVal.str "s")])] = true
    ∧ deepMergeWithPriority
        [("a", JVal.num 1), ("b", JVal.obj [("c", JVal.str "s")])]
        [("a", JVal.num 1), ("b", JVal.obj [("c", JVal.str "s")])]
      = [("a", JVal.num 1), ("b", JVal.obj [("c", JVal.str "s")])] :=
  ⟨by rfl, claim_C6_deep_merge_idempotent _ (by rfl)⟩

/-- C2: whenever model resolution yields the string `model`, the top-level
call returns exactly
`+{model} --vars '{"pool_name": "{pool}", "scala_job_id": "{job_id}"}'`
with `pool` the job id with every `/` replaced by `_`, and no other
substitution or escaping applied to `model`, `pool`, or the job id. -/
theorem claim_C2_invocation_string (env : Env) (isProd : Bool) (jobId model : String)
    (h : (fetchModelByJobId env jobId isProd).1 = Except.ok (JVal.str model)) :
    (fetchModelAndPoolName env isProd jobId).1
      = Except.ok ("+" ++ model ++ " --vars \x27\x7b\"pool_name\": \""
          ++ replaceSlash jobId ++ "\", \"scala_job_id\": \"" ++ jobId ++ "\"\x7d\x27") := by
  rcases hq : fetchModelByJobId env jobId isProd with ⟨r, t⟩
  rw [hq] at h
  simp only at h
  subst h
  simp only [fetchModelAndPoolName, hq, pyStr]

/-- Environment for the C2 witness: the document store yields one job
config with table name `analytics.table1` and no platform tag. -/
def envC2 : Env :=
  ⟨fun req => if req.documentType = "PipelineJob"
    then [[("json", JVal.obj [("foundations-table-name", JVal.str "analytics.table1")])]]
    else [], [], "key"⟩

/-- Witness for C2 at the spec scenario: job id `teamA/pipeline1`, model
`analytics.table1`. -/
theorem claim_C2_witness :
    (fetchModelByJobId envC2 "teamA/pipeline1" false).1
      = Except.ok (JVal.str "analytics.table1")
    ∧ (fetchModelAndPoolName envC2 false "teamA/pipeline1").1
      = Except.ok ("+analytics.table1 --vars \x27\x7b\"pool_name\": \"teamA_pipeline1\", \"scala_job_id\": \"teamA/pipeline1\"\x7d\x27") :=
  ⟨rfl, (claim_C2_invocation_string envC2 false "teamA/pipeline1" "analytics.table1"
    rfl).trans (by rfl)⟩

/-- C3: when the job config is a dict whose `platformTag` key is absent or
falsy, resolution performs only the one job-config document-store call
plus the warning (no taxonomy call, no shared-config call) and proceeds
non-fatally to extract the model from the job config alone. -/
theorem claim_C3_missing_platform_tag (env : Env) (jobId : String) (isProd : Bool)
    (m : List (String × JVal))
    (hc : fetchJobConfig env jobId isProd = Except.ok (JVal.obj m))
    (hf : pyFalsyOpt (m.lookup "platformTag") = true) :
    fetchModelByJobId env jobId isProd
      = (extractModel jobId m, [Effect.docStore, Effect.warn]) := by
  simp only [fetchModelByJobId, hc]
  cases hl : m.lookup "platformTag" with
  | none => rfl
  | some pv =>
    rw [hl] at hf
    simp only [pyFalsyOpt] at hf
    simp only [hf, if_true]

/-- Environment for the C3 witness: one job config with no `platformTag`
and table name `jobs.raw`. -/
def envC3 : Env :=
  ⟨fun req => if req.documentType = "PipelineJob"
    then [[("json", JVal.obj [("foundations-table-name", JVal.str "jobs.raw")])]]
    else [], [], "key"⟩

/-- Witness for C3 at the spec scenario: a job config with no
`platformTag` and table name `jobs.raw`. -/
theorem claim_C3_witness :
    fetchModelByJobId envC3 "job1" false
      = (Except.ok (JVal.str "jobs.raw"), [Effect.docStore, Effect.warn]) :=
  (claim_C3_missing_platform_tag envC3 "job1" false
    [("foundations-table-name", JVal.str "jobs.raw")] rfl rfl).trans (by rfl)

/-- C8: extracting the model from a resolved config fails with the
validation-kind error exactly when the `foundations-table-name` key is
absent or its value is falsy; otherwise the extracted model is that
key's value. -/
theorem claim_C8_table_name_validation (jobId : String) (m : List (String × JVal)) :
    (pyFalsyOpt (m.lookup "foundations-table-name") = true →
      extractModel jobId m = Except.error (Err.noTableName jobId)
      ∧ (Err.noTableName jobId).kind = ErrKind.validation)
    ∧ (∀ v : JVal, m.lookup "foundations-table-name" = some v → pyFalsy v = false →
      extractModel jobId m = Except.ok v) := by
  constructor
  · intro hf
    refine ⟨?_, rfl⟩
    rw [extractModel]
    cases hl : m.lookup "foundations-table-name" with
    | none => rfl
    | some v =>
      rw [hl] at hf
      simp only [pyFalsyOpt] at hf
      simp only [hf, if_true]
  · intro v hl hv
    rw [extractModel, hl]
    simp only [hv, Bool.false_eq_true, if_false]

/-- Witness for C8: a config without the key fails with the validation
error; a config with a truthy value returns it. -/
theorem claim_C8_witness :
    (extractModel "j1" [("other", JVal.num 1)] = Except.error (Err.noTableName "j1")
      ∧ (Err.noTableName "j1").kind = ErrKind.validation)
    ∧ extractModel "j1" [("foundations-table-name", JVal.str "t")]
        = Except.ok (JVal.str "t") :=
  ⟨(claim_C8_table_name_validation "j1" [("other", JVal.num 1)]).1 rfl,
   (claim_C8_table_name_validation "j1" [("foundations-table-name", JVal.str "t")]).2
     _ rfl rfl⟩

/-- C7: an empty document-store response makes the job-config fetch (and
with it the whole resolution), respectively the shared-config fetch, raise
the dedicated missing-record error, whose kind is `notFound` — distinct
from the configuration, upstream, and validation kinds. -/
theorem claim_C7_zero_records_not_found (env : Env) (jobId : String) (tid : Int)
    (isProd : Bool) :
    (env.docStore (jobSearchRequest jobId isProd) = [] →
      fetchJobConfig env jobId isProd = Except.error (Err.noJobConfig jobId)
      ∧ (fetchModelByJobId env jobId isProd).1 = Except.error (Err.noJobConfig jobId))
    ∧ (env.docStore (sharedSearchRequest tid isProd) = [] →
      fetchSharedPlatformConfig env tid isProd = Except.error (Err.noSharedConfig tid))
    ∧ (∀ m : List (String × JVal), ∀ pv : JVal,
      fetchJobConfig env jobId isProd = Except.ok (JVal.obj m) →
      m.lookup "platformTag" = some pv → pyFalsy pv = false → env.dlcApiKey ≠ "" →
      (getTaxonomyTagId env ⟨none⟩ pv).1 = Except.ok tid →
      env.docStore (sharedSearchRequest tid isProd) = [] →
      (fetchModelByJobId env jobId isProd).1 = Except.error (Err.noSharedConfig tid))
    ∧ (Err.noJobConfig jobId).kind = ErrKind.notFound
    ∧ (Err.noSharedConfig tid).kind = ErrKind.notFound
    ∧ ErrKind.notFound ≠ ErrKind.configuration
    ∧ ErrKind.notFound ≠ ErrKind.upstream
    ∧ ErrKind.notFound ≠ ErrKind.validation := by
  refine ⟨?_, ?_, ?_, rfl, rfl,
    fun h => ErrKind.noConfusion h, fun h => ErrKind.noConfusion h,
    fun h => ErrKind.noConfusion h⟩
  · intro h
    have hj : fetchJobConfig env jobId isProd = Except.error (Err.noJobConfig jobId) := by
      simp only [fetchJobConfig, h]
    exact ⟨hj, by simp only [fetchModelByJobId, hj]⟩
  · intro h
    simp only [fetchSharedPlatformConfig, h]
  · intro m pv hjc hpt hpv hkey htax hsh
    have hsc : fetchSharedPlatformConfig env tid isProd
        = Except.error (Err.noSharedConfig tid) := by
      simp only [fetchSharedPlatformConfig, hsh]
    have hkeyb : (env.dlcApiKey == "") = false := beq_eq_false_iff_ne.mpr hkey
    simp [fetchModelByJobId, hjc, hpt, hpv, hkeyb, htax, hsc]

/-- Environment for the C7 witness: the document store returns zero
records for every search. -/
def envC7 : Env := ⟨fun _ => [], [], "key"⟩

/-- Witness for C7: concrete empty-response lookups raise the two
missing-record errors. -/
theorem claim_C7_witness :
    fetchJobConfig envC7 "missing" false = Except.error (Err.noJobConfig "missing")
    ∧ fetchSharedPlatformConfig envC7 9 false = Except.error (Err.noSharedConfig 9) :=
  ⟨((claim_C7_zero_records_not_found envC7 "missing" 9 false).1 rfl).1,
   (claim_C7_zero_records_not_found envC7 "missing" 9 false).2.1 rfl⟩

/-- C10: a non-empty document-store response whose first record has no
`json` field resolves to the empty dict without raising at fetch time, in
both fetch helpers; resolution then fails only at the table-name check,
with the validation-kind error, not a not-found error. -/
theorem claim_C10_missing_json_field (env : Env) (jobId : String) (tid : Int)
    (isProd : Bool) (r : List (String × JVal)) (rs : List (List (String × JVal))) :
    (env.docStore (jobSearchRequest jobId isProd) = r :: rs → r.lookup "json" = none →
      fetchJobConfig env jobId isProd = Except.ok (JVal.obj [])
      ∧ (fetchModelByJobId env jobId isProd).1 = Except.error (Err.noTableName jobId))
    ∧ (env.docStore (sharedSearchRequest tid isProd) = r :: rs → r.lookup "json" = none →
      fetchSharedPlatformConfig env tid isProd = Except.ok (JVal.obj []))
    ∧ (Err.noTableName jobId).kind = ErrKind.validation
    ∧ ErrKind.validation ≠ ErrKind.notFound := by
  refine ⟨?_, ?_, rfl, fun h => ErrKind.noConfusion h⟩
  · intro h hj
    have hcfg : fetchJobConfig env jobId isProd = Except.ok (JVal.obj []) := by
      simp only [fetchJobConfig, h, hj, Option.getD_none]
    refine ⟨hcfg, ?_⟩
    simp only [fetchModelByJobId, hcfg]
    rfl
  · intro h hj
    simp only [fetchSharedPlatformConfig, h, hj, Option.getD_none]

/-- Environment for the C10 witness: every search returns one record that
lacks the `json` field. -/
def envC10 : Env := ⟨fun _ => [[("other", JVal.num 1)]], [], "key"⟩

/-- Witness for C10 at a concrete record without a `json` field. -/
theorem claim_C10_witness :
    (fetchJobConfig envC10 "j2" false = Except.ok (JVal.obj [])
      ∧ (fetchModelByJobId envC10 "j2" false).1 = Except.error (Err.noTableName "j2"))
    ∧ fetchSharedPlatformConfig envC10 3 false = Except.ok (JVal.obj []) :=
  ⟨(claim_C10_missing_json_field envC10 "j2" 3 false [("other", JVal.num 1)] []).1 rfl rfl,
   (claim_C10_missing_json_field envC10 "j2" 3 false [("other", JVal.num 1)] []).2.1 rfl rfl⟩

theorem runTagLookups_cached (env : Env) (tags : List JVal) (m : List (String × Int)) :
    (runTagLookups env ⟨some m⟩ tags).2 = 0
    ∧ (runTagLookups env ⟨some m⟩ tags).1.taxonomyCache = some m := by
  induction tags with
  | nil => exact ⟨rfl, rfl⟩
  | cons t ts ih =>
    have e1 : (getTaxonomyTagId env ⟨some m⟩ t).2.1 = (⟨some m⟩ : DLCTaxonomyClient) := rfl
    have e2 : (getTaxonomyTagId env ⟨some m⟩ t).2.2 = 0 := rfl
    simp only [runTagLookups, e1, e2, Nat.zero_add]
    exact ih

/-- C4: on a single `DLCTaxonomyClient` instance, any non-empty sequence
of `get_taxonomy_tag_id` calls issues exactly one taxonomy-service HTTP
call: the cache is populated on the first call and every later call
reuses it. -/
theorem claim_C4_taxonomy_single_http_call (env : Env) (tags : List JVal)
    (h : tags ≠ []) :
    (runTagLookups env ⟨none⟩ tags).2 = 1
    ∧ (runTagLookups env ⟨none⟩ tags).1.taxonomyCache = some (fetchTaxonomyTags env) := by
  cases tags with
  | nil => exact absurd rfl h
  | cons t ts =>
    have e1 : (getTaxonomyTagId env ⟨none⟩ t).2.1
        = (⟨some (fetchTaxonomyTags env)⟩ : DLCTaxonomyClient) := rfl
    have e2 : (getTaxonomyTagId env ⟨none⟩ t).2.2 = 1 := rfl
    simp only [runTagLookups, e1, e2]
    have hc := runTagLookups_cached env ts (fetchTaxonomyTags env)
    rw [hc.1]
    exact ⟨rfl, hc.2⟩

/-- Environment for the C4 witness: a taxonomy service with one
`PIPELINE_PLATFORM` tag. -/
def envC4 : Env := ⟨fun _ => [], [⟨"spark", 7, some "PIPELINE_PLATFORM"⟩], "key"⟩

/-- Witness for C4: three lookups (repeated and distinct tags, one of them
missing) on one fresh client issue exactly one HTTP call. -/
theorem claim_C4_witness :
    (runTagLookups envC4 ⟨none⟩
        [JVal.str "spark", JVal.str "spark", JVal.str "absent"]).2 = 1
    ∧ (runTagLookups envC4 ⟨none⟩
        [JVal.str "spark", JVal.str "spark", JVal.str "absent"]).1.taxonomyCache
      = some (fetchTaxonomyTags envC4) :=
  claim_C4_taxonomy_single_http_call envC4
    [JVal.str "spark", JVal.str "spark", JVal.str "absent"]
    (fun hx => List.noConfusion hx)

/-! Frame lemmas for the heap-level merge: every write of
`_deep_merge_with_priority` targets a freshly allocated dict object, so
every address that existed before the call keeps its contents. -/

theorem mergeLoopWith_frame
    (rec : Store → Nat → Nat → Option (Store × Nat))
    (hrec : ∀ s ba oa s2 rr, rec s ba oa = some (s2, rr) →
      s.mem.length ≤ s2.mem.length
      ∧ ∀ i, i < s.mem.length → s2.mem[i]? = s.mem[i]?) :
    ∀ l : List (String × HVal), ∀ s : Store, ∀ mergedA N : Nat, ∀ s2 : Store, ∀ rr : Nat,
      mergeLoopWith rec s mergedA l = some (s2, rr) →
      N ≤ s.mem.length → N ≤ mergedA →
      N ≤ s2.mem.length ∧ ∀ i, i < N → s2.mem[i]? = s.mem[i]? := by
  intro l
  induction l with
  | nil =>
    intro s mergedA N s2 rr h hN hM
    simp only [mergeLoopWith] at h
    obtain ⟨h1, h2⟩ := Prod.mk.injEq .. ▸ Option.some.inj h
    subst h1
    exact ⟨hN, fun i hi => rfl⟩
  | cons p t ih =>
    obtain ⟨k, ov⟩ := p
    intro s mergedA N s2 rr h hN hM
    simp only [mergeLoopWith] at h
    split at h
    · exact Option.noConfusion h
    · rename_i md hrd
      split at h
      · rename_i ba oa hlk
        rcases hr : rec s ba oa with _ | ⟨s3, subA⟩
        · rw [hr] at h
          exact Option.noConfusion h
        · simp only [hr] at h
          rcases hrd2 : s3.readDict mergedA with _ | md2
          · simp only [hrd2] at h
            exact Option.noConfusion h
          · simp only [hrd2] at h
            obtain ⟨hlen3, hpres3⟩ := hrec s ba oa s3 subA hr
            obtain ⟨hN2, hpres4⟩ := ih _ mergedA N s2 rr h
              (by simp only [Store.writeDict, List.length_set]; omega) hM
            refine ⟨hN2, fun i hi => ?_⟩
            rw [hpres4 i hi]
            simp only [Store.writeDict]
            rw [List.getElem?_set_ne (by omega)]
            exact hpres3 i (by omega)
      · obtain ⟨hN2, hpres4⟩ := ih _ mergedA N s2 rr h
          (by simp only [Store.writeDict, List.length_set]; omega) hM
        refine ⟨hN2, fun i hi => ?_⟩
        rw [hpres4 i hi]
        simp only [Store.writeDict]
        rw [List.getElem?_set_ne (by omega)]

theorem deepMergeH_frame : ∀ fuel : Nat, ∀ s : Store, ∀ ba oa : Nat, ∀ s2 : Store,
    ∀ rr : Nat, deepMergeH fuel s ba oa = some (s2, rr) →
    s.mem.length ≤ s2.mem.length ∧ ∀ i, i < s.mem.length → s2.mem[i]? = s.mem[i]? := by
  intro fuel
  induction fuel with
  | zero =>
    intro s ba oa s2 rr h
    exact Option.noConfusion h
  | succ n ih =>
    intro s ba oa s2 rr h
    simp only [deepMergeH] at h
    cases hb : s.readDict ba with
    | none => rw [hb] at h; exact Option.noConfusion h
    | some bd =>
      rw [hb] at h
      cases ho : s.readDict oa with
      | none => rw [ho] at h; exact Option.noConfusion h
      | some od =>
        rw [ho] at h
        obtain ⟨hN2, hpres⟩ := mergeLoopWith_frame (deepMergeH n) ih od
          (s.allocDict bd) s.mem.length s.mem.length s2 rr h
          (by simp only [Store.allocDict, List.length_append]; omega) (Nat.le_refl _)
        refine ⟨hN2, fun i hi => ?_⟩
        rw [hpres i hi]
        simp only [Store.allocDict]
        exact List.getElem?_append_left hi

theorem deepMergeH_args_in_bounds (fuel : Nat) (s : Store) (ba oa : Nat) (s2 : Store)
    (rr : Nat) (h : deepMergeH fuel s ba oa = some (s2, rr)) :
    ba < s.mem.length ∧ oa < s.mem.length := by
  cases fuel with
  | zero => exact Option.noConfusion h
  | succ n =>
    simp only [deepMergeH] at h
    cases hb : s.readDict ba with
    | none => rw [hb] at h; exact Option.noConfusion h
    | some bd =>
      cases ho : s.readDict oa with
      | none => rw [hb, ho] at h; exact Option.noConfusion h
      | some od =>
        constructor
        · by_contra hx
          rw [Store.readDict, List.getElem?_eq_none (by omega)] at hb
          exact Option.noConfusion hb
        · by_contra hx
          rw [Store.readDict, List.getElem?_eq_none (by omega)] at ho
          exact Option.noConfusion ho

/-- C5: whenever the heap-level `_deep_merge_with_priority` terminates,
every dict object that existed before the call — in particular the `base`
and `override` arguments and every dict nested inside them — holds exactly
the same contents afterwards: the merge never mutates its inputs. -/
theorem claim_C5_deep_merge_no_mutation (fuel : Nat) (s : Store) (baseA overA : Nat)
    (s2 : Store) (resA : Nat)
    (h : deepMergeH fuel s baseA overA = some (s2, resA)) :
    (∀ i, i < s.mem.length → s2.mem[i]? = s.mem[i]?)
    ∧ s2.mem[baseA]? = s.mem[baseA]?
    ∧ s2.mem[overA]? = s.mem[overA]? := by
  obtain ⟨hb, ho⟩ := deepMergeH_args_in_bounds fuel s baseA overA s2 resA h
  obtain ⟨hlen, hpres⟩ := deepMergeH_frame fuel s baseA overA s2 resA h
  exact ⟨hpres, hpres baseA hb, hpres overA ho⟩

/-- Initial heap for the C5 witness: `base` at address 0 is
`{"a": 1, "m": <dict at 1>}`, `override` at address 2 is
`{"a": 9, "m": <dict at 3>}`. -/
def storeC5 : Store := ⟨[
  [("a", HVal.num 1), ("m", HVal.ref 1)],
  [("x", HVal.num 2)],
  [("a", HVal.num 9), ("m", HVal.ref 3)],
  [("x", HVal.num 5)]]⟩

/-- Heap after the C5 witness merge: the merged dict lives at the fresh
address 4 with a fresh sub-dict at 5; addresses 0-3 are untouched. -/
def storeC5out : Store := ⟨[
  [("a", HVal.num 1), ("m", HVal.ref 1)],
  [("x", HVal.num 2)],
  [("a", HVal.num 9), ("m", HVal.ref 3)],
  [("x", HVal.num 5)],
  [("a", HVal.num 9), ("m", HVal.ref 5)],
  [("x", HVal.num 5)]]⟩

/-- Witness for C5: a terminating concrete merge of nested dicts leaves
all four pre-existing heap cells unchanged. -/
theorem claim_C5_witness :
    deepMergeH 5 storeC5 0 2 = some (storeC5out, 4)
    ∧ storeC5out.mem[0]? = storeC5.mem[0]?
    ∧ storeC5out.mem[1]? = storeC5.mem[1]?
    ∧ storeC5out.mem[2]? = storeC5.mem[2]?
    ∧ storeC5out.mem[3]? = storeC5.mem[3]? :=
  ⟨rfl,
   (claim_C5_deep_merge_no_mutation 5 storeC5 0 2 storeC5out 4 rfl).1 0 (by decide),
   (claim_C5_deep_merge_no_mutation 5 storeC5 0 2 storeC5out 4 rfl).1 1 (by decide),
   (claim_C5_deep_merge_no_mutation 5 storeC5 0 2 storeC5out 4 rfl).1 2 (by decide),
   (claim_C5_deep_merge_no_mutation 5 storeC5 0 2 storeC5out 4 rfl).1 3 (by decide)⟩

theorem countTaxHttp_append (a b : List Effect) :
    countTaxHttp (a ++ b) = countTaxHttp a + countTaxHttp b := by
  induction a with
  | nil => simp [countTaxHttp]
  | cons x t ih => cases x <;> simp [countTaxHttp, ih, Nat.add_right_comm]

theorem fetchModelAndPoolName_trace (env : Env) (isProd : Bool) (jobId : String) :
    (fetchModelAndPoolName env isProd jobId).2 = (fetchModelByJobId env jobId isProd).2 := by
  rcases hq : fetchModelByJobId env jobId isProd with ⟨r, t⟩
  cases r <;> simp [fetchModelAndPoolName, hq]

/-- C9 (amended): each top-level resolution performs, in order, one
document-store call, then on the platform branch one taxonomy HTTP call
and (unless the tag lookup fails) one further document-store call — the
trace is one of `[doc]`, `[doc, warn]`, `[doc, tax]`, `[doc, tax, doc]`.
But the `DLCTaxonomyClient` is constructed afresh inside every resolution,
so its cache never spans top-level calls: `n` repeated resolutions on one
client issue `n` times the taxonomy HTTP calls of a single resolution,
not at most one. -/
theorem claim_C9_per_call_sequence (env : Env) (jobId : String) (isProd : Bool) (n : Nat) :
    ((fetchModelByJobId env jobId isProd).2 = [Effect.docStore]
      ∨ (fetchModelByJobId env jobId isProd).2 = [Effect.docStore, Effect.warn]
      ∨ (fetchModelByJobId env jobId isProd).2 = [Effect.docStore, Effect.taxHttp]
      ∨ (fetchModelByJobId env jobId isProd).2
          = [Effect.docStore, Effect.taxHttp, Effect.docStore])
    ∧ countTaxHttp (runResolutions env jobId isProd n)
        = n * countTaxHttp (fetchModelByJobId env jobId isProd).2 := by
  constructor
  · rcases hj : fetchJobConfig env jobId isProd with e | jc
    · simp [fetchModelByJobId, hj]
    · cases jc with
      | obj m =>
        simp only [fetchModelByJobId, hj]
        rcases hl : m.lookup "platformTag" with _ | pv
        · simp
        · cases hpv : pyFalsy pv with
          | true => simp [hpv]
          | false =>
            simp only [hpv, Bool.false_eq_true, if_false]
            cases hkey : env.dlcApiKey == "" with
            | true => simp [hkey]
            | false =>
              simp only [hkey, Bool.false_eq_true, if_false]
              rcases htax : (getTaxonomyTagId env ⟨none⟩ pv).1 with e | tid
              · simp [htax, List.replicate]
              · rcases hsc : fetchSharedPlatformConfig env tid isProd with e | sc
                · simp [htax, hsc, List.replicate]
                · cases sc <;> simp [htax, hsc, List.replicate]
      | null => simp [fetchModelByJobId, hj]
      | bool b => simp [fetchModelByJobId, hj]
      | num x => simp [fetchModelByJobId, hj]
      | str x => simp [fetchModelByJobId, hj]
      | list l => simp [fetchModelByJobId, hj]
  · induction n with
    | zero => simp [runResolutions, countTaxHttp]
    | succ k ih =>
      simp only [runResolutions, countTaxHttp_append, fetchModelAndPoolName_trace, ih,
        Nat.succ_mul]
      omega

/-- Environment refuting the claim's cross-call caching: the job config
carries platform tag `spark`, the taxonomy resolves it, and the shared
config search returns no records. -/
def envC9 : Env :=
  ⟨fun req => if req.documentType = "PipelineJob"
      then [[("json", JVal.obj [("platformTag", JVal.str "spark"),
                                ("foundations-table-name", JVal.str "jobs.x")])]]
      else [],
   [⟨"spark", 7, some "PIPELINE_PLATFORM"⟩], "key"⟩

/-- Counterexample to C9 as stated: two top-level resolutions on the same
client issue two taxonomy HTTP calls, not at most one, because each
resolution constructs a fresh `DLCTaxonomyClient` with an empty cache. -/
theorem claim_C9_counterexample :
    countTaxHttp (runResolutions envC9 "jobA" false 2) = 2
    ∧ ¬ countTaxHttp (runResolutions envC9 "jobA" false 2) ≤ 1 := by
  constructor
  · decide
  · decide

end Dv01Helper
